/-
A shallow embedding in Lean 4 of the bump allocator in `src/lib.rs`
(crate `bump-malloc-free`), together with theorems checking the
repository's specification against the code.

Modelling decisions, all taken from the source:
* `usize` is modelled as `Nat`; the target is a 64-bit machine, so
  arithmetic that can overflow in release-mode Rust (the size-rounding
  sum `size + ALIGNMENT - 1`, the head advance `self.head + rounded`,
  and the count increment `self.count + 1`) is reduced modulo
  `W = 2 ^ 64` exactly where the machine reduces it.  `(x / A) * A`
  cannot overflow (it is at most `x`), the `count - 1` in `free` is
  guarded by `count > 0` so it cannot underflow, and `maximum_usage` is
  only ever assigned a copy of `head`, so no other reduction occurs.
* Rust panics are modelled by `Except MallocPanic`: division by zero
  when `ALIGNMENT = 0`, and the slice index `&mut self.heap[self.head]`
  which requires `self.head < SIZE` (the array `heap : [u8; SIZE]` has
  length `SIZE`).
* A returned pointer is modelled as the byte offset into `heap` that the
  code takes the address of; the null pointer is `none`.
* The `on_changed : Option<fn(Status)>` handler is a code pointer whose
  only observable effect is being called; the model keeps a `Bool`
  recording whether a handler is installed and returns the list of
  `Status` snapshots delivered to it (empty when not installed, as in
  `Bump::changed`).  The leak handler `on_drop_without_free` is likewise
  modelled by the number of times `Drop::drop` invokes it.
-/
import Mathlib

set_option autoImplicit false
set_option maxRecDepth 40000

namespace BumpMallocFree

/-- `2 ^ 64`: the modulus of `usize` arithmetic on the 64-bit targets
modelled here. -/
def W : Nat := 2 ^ 64

/-- The `Action` enum of `src/lib.rs` (tags of change events). -/
inductive Action where
  | Free
  | Malloc
  | Error
deriving DecidableEq, Repr

/-- The `Status` struct of `src/lib.rs`: the snapshot passed to the
change handler (`action`, `count`, `usage = head`, `maximum_usage`). -/
structure Status where
  action : Action
  count : Nat
  usage : Nat
  maximum_usage : Nat
deriving DecidableEq, Repr

/-- The ways `Bump::malloc` can panic: `ALIGNMENT = 0` makes
`/ ALIGNMENT` a division by zero, and `&mut self.heap[self.head]`
panics when `self.head` is not a valid index of `heap : [u8; SIZE]`. -/
inductive MallocPanic where
  | divByZero
  | indexOutOfBounds
deriving DecidableEq, Repr

deriving instance DecidableEq for Except

/-- The `Bump<SIZE, ALIGNMENT>` struct of `src/lib.rs`.  The two
function-pointer fields are replaced by the observable data the
theorems need: `on_changed` records whether a change handler is
installed (`Option<fn(Status)>` being `Some`). -/
structure Bump (SIZE ALIGNMENT : Nat) where
  count : Nat
  head : Nat
  heap : List Nat
  maximum_usage : Nat
  on_changed : Bool
deriving DecidableEq, Repr

namespace Bump

variable {SIZE ALIGNMENT : Nat}

/-- `Bump::new`: zeroed buffer, zero counters, no change handler, the
default (no-op) leak handler. -/
def new (SIZE ALIGNMENT : Nat) : Bump SIZE ALIGNMENT :=
  { count := 0
    head := 0
    heap := List.replicate SIZE 0
    maximum_usage := 0
    on_changed := false }

/-- `Bump::get_count`. -/
def get_count (b : Bump SIZE ALIGNMENT) : Nat := b.count

/-- `Bump::get_maximum_usage`. -/
def get_maximum_usage (b : Bump SIZE ALIGNMENT) : Nat := b.maximum_usage

/-- `Bump::handle_on_changed`: installs a change handler. -/
def handle_on_changed (b : Bump SIZE ALIGNMENT) : Bump SIZE ALIGNMENT :=
  { b with on_changed := true }

/-- `Bump::changed`: builds a `Status` snapshot from the current fields
and delivers it to the handler when one is installed.  The result is
the list of snapshots delivered (one, or none when no handler is
installed). -/
def changed (b : Bump SIZE ALIGNMENT) (action : Action) : List Status :=
  if b.on_changed then
    [{ action := action
       count := b.count
       usage := b.head
       maximum_usage := b.maximum_usage }]
  else []

/-- The machine value of `((size + ALIGNMENT - 1) / ALIGNMENT) * ALIGNMENT`
computed by `Bump::malloc` in release-mode `usize` arithmetic: the sum
wraps modulo `W`; the division and the multiplication back cannot
overflow. -/
def roundedSize (ALIGNMENT size : Nat) : Nat :=
  (size + ALIGNMENT - 1) % W / ALIGNMENT * ALIGNMENT

/-- The machine value of `self.head + rounded` (`next_head` in
`Bump::malloc`), wrapping modulo `W`. -/
def nextHead (b : Bump SIZE ALIGNMENT) (size : Nat) : Nat :=
  (b.head + roundedSize ALIGNMENT size) % W

/-- `Bump::malloc` of `src/lib.rs`:

```rust
fn malloc(self: &mut Self, size: usize) -> *mut c_void {
    let next_head = self.head + ((size + ALIGNMENT - 1) / ALIGNMENT) * ALIGNMENT;
    if next_head > SIZE {
        self.changed(Action::Error);
        return core::ptr::null_mut();
    }
    let result = &mut self.heap[self.head] as *mut u8;
    self.head = next_head;
    if self.maximum_usage < self.head {
        self.maximum_usage = self.head;
    }
    self.count = self.count + 1;
    self.changed(Action::Malloc);
    result as *mut c_void
}
```

Returns the new state, the returned pointer (`none` for null, `some
offset` for `&heap[offset]`), and the change events delivered.
`mallocUpdate` below is the success-path field update. -/
def mallocUpdate (b : Bump SIZE ALIGNMENT) (size : Nat) : Bump SIZE ALIGNMENT :=
  { b with
    head := b.nextHead size
    maximum_usage :=
      if b.maximum_usage < b.nextHead size then b.nextHead size
      else b.maximum_usage
    count := (b.count + 1) % W }

/-- The branching structure of `Bump::malloc`; see the doc comment of
`mallocUpdate` for the source text being modelled. -/
def malloc (b : Bump SIZE ALIGNMENT) (size : Nat) :
    Except MallocPanic (Bump SIZE ALIGNMENT × Option Nat × List Status) :=
  if ALIGNMENT = 0 then
    .error .divByZero
  else if b.nextHead size > SIZE then
    .ok (b, none, b.changed .Error)
  else if b.head < SIZE then
    .ok (b.mallocUpdate size, some b.head, (b.mallocUpdate size).changed .Malloc)
  else
    .error .indexOutOfBounds

/-- `Bump::free` of `src/lib.rs`:

```rust
fn free(self: &mut Self, _ptr: *mut c_void) {
    //if no items are used, reset the head
    if self.count > 0 {
        self.count = self.count - 1;
        if self.count == 0 {
            self.head = 0;
        }
    }
    self.changed(Action::Free);
}
```

The pointer argument is ignored by the code; it is kept in the model's
signature.  Returns the new state and the change events delivered.
`freeUpdate` is the state after the counter logic, before the
`self.changed(Action::Free)` call. -/
def freeUpdate (b : Bump SIZE ALIGNMENT) : Bump SIZE ALIGNMENT :=
  if b.count > 0 then
    { b with
      count := b.count - 1
      head := if b.count - 1 = 0 then 0 else b.head }
  else b

/-- The body of `Bump::free`; see `freeUpdate` for the source text. -/
def free (b : Bump SIZE ALIGNMENT) (_ptr : Nat) :
    Bump SIZE ALIGNMENT × List Status :=
  (b.freeUpdate, b.freeUpdate.changed .Free)

/-- The number of times `Drop::drop` for `Bump` invokes the
`on_drop_without_free` handler:

```rust
fn drop(self: &mut Self) {
    if self.count > 0 {
        (self.on_drop_without_free)();
    }
}
``` -/
def dropLeakInvocations (b : Bump SIZE ALIGNMENT) : Nat :=
  if b.count > 0 then 1 else 0

end Bump

/-- `no_panic_on_drop_without_free`, the default leak handler installed
by `Bump::new`: `fn no_panic_on_drop_without_free() {}` — it does
nothing. -/
def no_panic_on_drop_without_free : Unit := ()

/-- One caller-visible operation on the arena, for reachability. -/
inductive Op where
  | malloc (size : Nat)
  | free (ptr : Nat)
deriving DecidableEq, Repr

namespace Bump

variable {SIZE ALIGNMENT : Nat}

/-- Run one operation; `none` when `malloc` panics. -/
def step (b : Bump SIZE ALIGNMENT) : Op → Option (Bump SIZE ALIGNMENT)
  | .malloc size =>
      match b.malloc size with
      | .ok (b', _, _) => some b'
      | .error _ => none
  | .free p => some (b.free p).1

/-- Run a sequence of operations from a state. -/
def run (b : Bump SIZE ALIGNMENT) : List Op → Option (Bump SIZE ALIGNMENT)
  | [] => some b
  | op :: ops =>
      match b.step op with
      | some b' => b'.run ops
      | none => none

/-- The state invariant of the arena preserved by every operation: the
head and the high-water mark stay within the capacity. -/
def Inv (b : Bump SIZE ALIGNMENT) : Prop :=
  b.head ≤ SIZE ∧ b.maximum_usage ≤ SIZE

end Bump

namespace Bump

variable {SIZE ALIGNMENT : Nat}

theorem malloc_of_fail (b : Bump SIZE ALIGNMENT) (size : Nat)
    (hA : ALIGNMENT ≠ 0) (h : SIZE < b.nextHead size) :
    b.malloc size = .ok (b, none, b.changed .Error) := by
  simp only [malloc]
  rw [if_neg hA, if_pos h]

theorem malloc_of_success (b : Bump SIZE ALIGNMENT) (size : Nat)
    (hA : ALIGNMENT ≠ 0) (hfit : b.nextHead size ≤ SIZE) (hlt : b.head < SIZE) :
    b.malloc size =
      .ok (b.mallocUpdate size, some b.head, (b.mallocUpdate size).changed .Malloc) := by
  simp only [malloc]
  rw [if_neg hA, if_neg (Nat.not_lt.mpr hfit), if_pos hlt]

theorem malloc_of_panic (b : Bump SIZE ALIGNMENT) (size : Nat)
    (hA : ALIGNMENT ≠ 0) (hfit : b.nextHead size ≤ SIZE) (hge : ¬ b.head < SIZE) :
    b.malloc size = .error .indexOutOfBounds := by
  simp only [malloc]
  rw [if_neg hA, if_neg (Nat.not_lt.mpr hfit), if_neg hge]

/-- Inversion for `malloc` returning: either the request did not fit
(null return, state unchanged, one `Error` event), or it fit with
`head` a valid index (address = old head, state updated, one `Malloc`
event). -/
theorem malloc_ok_elim {b b' : Bump SIZE ALIGNMENT} {size : Nat}
    {r : Option Nat} {evs : List Status}
    (h : b.malloc size = .ok (b', r, evs)) :
    (SIZE < b.nextHead size ∧ b' = b ∧ r = none ∧ evs = b.changed .Error) ∨
    (b.nextHead size ≤ SIZE ∧ b.head < SIZE ∧ b' = b.mallocUpdate size ∧
      r = some b.head ∧ evs = (b.mallocUpdate size).changed .Malloc) := by
  simp only [malloc] at h
  by_cases hA : ALIGNMENT = 0
  · rw [if_pos hA] at h
    exact Except.noConfusion h
  · rw [if_neg hA] at h
    by_cases hgt : b.nextHead size > SIZE
    · rw [if_pos hgt] at h
      simp only [Except.ok.injEq, Prod.mk.injEq] at h
      exact Or.inl ⟨hgt, h.1.symm, h.2.1.symm, h.2.2.symm⟩
    · rw [if_neg hgt] at h
      by_cases hlt : b.head < SIZE
      · rw [if_pos hlt] at h
        simp only [Except.ok.injEq, Prod.mk.injEq] at h
        exact Or.inr ⟨Nat.not_lt.mp hgt, hlt, h.1.symm, h.2.1.symm, h.2.2.symm⟩
      · rw [if_neg hlt] at h
        exact Except.noConfusion h

theorem inv_new (S A : Nat) : Inv (new S A) := by
  refine ⟨?_, ?_⟩ <;> simp [new]

theorem inv_step {b b' : Bump SIZE ALIGNMENT} {op : Op}
    (hb : Inv b) (h : b.step op = some b') : Inv b' := by
  cases op with
  | malloc size =>
    simp only [step] at h
    cases hm : b.malloc size with
    | error e => rw [hm] at h; cases h
    | ok x =>
      obtain ⟨b'', r, evs⟩ := x
      rw [hm] at h
      simp only [Option.some.injEq] at h
      subst h
      rcases malloc_ok_elim hm with ⟨_, hb'', _, _⟩ | ⟨hfit, _, hb'', _, _⟩
      · subst hb''; exact hb
      · subst hb''
        obtain ⟨h1, h2⟩ := hb
        refine ⟨hfit, ?_⟩
        simp only [mallocUpdate]
        split_ifs <;> [exact hfit; exact h2]
  | free p =>
    simp only [step, free, Option.some.injEq] at h
    subst h
    obtain ⟨h1, h2⟩ := hb
    simp only [freeUpdate]
    split_ifs with hc h0
    · exact ⟨Nat.zero_le _, h2⟩
    · exact ⟨h1, h2⟩
    · exact ⟨h1, h2⟩

theorem inv_run {ops : List Op} {b b' : Bump SIZE ALIGNMENT}
    (hb : Inv b) (h : b.run ops = some b') : Inv b' := by
  induction ops generalizing b with
  | nil =>
    simp only [run, Option.some.injEq] at h
    subst h; exact hb
  | cons op ops ih =>
    simp only [run] at h
    cases hs : b.step op with
    | none => rw [hs] at h; cases h
    | some b1 =>
      rw [hs] at h
      exact ih (inv_step hb hs) h

theorem step_maximum_usage_mono {b b' : Bump SIZE ALIGNMENT} {op : Op}
    (h : b.step op = some b') : b.maximum_usage ≤ b'.maximum_usage := by
  cases op with
  | malloc size =>
    simp only [step] at h
    cases hm : b.malloc size with
    | error e => rw [hm] at h; cases h
    | ok x =>
      obtain ⟨b'', r, evs⟩ := x
      rw [hm] at h
      simp only [Option.some.injEq] at h
      subst h
      rcases malloc_ok_elim hm with ⟨_, hb'', _, _⟩ | ⟨_, _, hb'', _, _⟩
      · subst hb''; exact Nat.le_refl _
      · subst hb''
        simp only [mallocUpdate]
        split_ifs with hlt
        · exact Nat.le_of_lt hlt
        · exact Nat.le_refl _
  | free p =>
    simp only [step, free, Option.some.injEq] at h
    subst h
    simp only [freeUpdate]
    split_ifs <;> exact Nat.le_refl _

theorem run_maximum_usage_mono {ops : List Op} {b b' : Bump SIZE ALIGNMENT}
    (h : b.run ops = some b') : b.maximum_usage ≤ b'.maximum_usage := by
  induction ops generalizing b with
  | nil =>
    simp only [run, Option.some.injEq] at h
    subst h; exact Nat.le_refl _
  | cons op ops ih =>
    simp only [run] at h
    cases hs : b.step op with
    | none => rw [hs] at h; cases h
    | some b1 =>
      rw [hs] at h
      exact Nat.le_trans (step_maximum_usage_mono hs) (ih h)

theorem run_cons_of_step {b b1 : Bump SIZE ALIGNMENT} {op : Op}
    (h : b.step op = some b1) (ops : List Op) :
    b.run (op :: ops) = b1.run ops := by
  simp only [run, h]

theorem run_append_of_some {b b' : Bump SIZE ALIGNMENT} {l1 : List Op}
    (h : b.run l1 = some b') (l2 : List Op) :
    b.run (l1 ++ l2) = b'.run l2 := by
  induction l1 generalizing b with
  | nil =>
    simp only [run, Option.some.injEq] at h
    subst h
    rfl
  | cons op ops ih =>
    cases hs : b.step op with
    | none =>
      simp only [run, hs] at h
      exact Option.noConfusion h
    | some b1 =>
      rw [List.cons_append, run_cons_of_step hs (ops ++ l2)]
      simp only [run, hs] at h
      exact ih h

/-- One `malloc(0)` step on `Bump<8, 8>` at head 0: the rounded size is
0, the call succeeds without moving the head, and the count takes the
wrapping increment of the source's `usize` addition. -/
theorem step_malloc_zero_at (c : Nat) :
    Bump.step (⟨c, 0, List.replicate 8 0, 0, false⟩ : Bump 8 8) (Op.malloc 0) =
      some ⟨(c + 1) % W, 0, List.replicate 8 0, 0, false⟩ := by
  rfl

/-- Iterating `malloc(0)` on `Bump<8, 8>`: `n` calls from count `c`
leave the head at 0 and the count at `(c + n) % W`. -/
theorem run_replicate_malloc0 (n : Nat) :
    ∀ c : Nat, c < W →
      Bump.run (⟨c, 0, List.replicate 8 0, 0, false⟩ : Bump 8 8)
        (List.replicate n (Op.malloc 0)) =
        some ⟨(c + n) % W, 0, List.replicate 8 0, 0, false⟩ := by
  induction n with
  | zero =>
    intro c hc
    simp only [List.replicate_zero, run, Option.some.injEq]
    rw [Nat.add_zero, Nat.mod_eq_of_lt hc]
  | succ n ih =>
    intro c hc
    have h1 : List.replicate (n + 1) (Op.malloc 0) =
        Op.malloc 0 :: List.replicate n (Op.malloc 0) := rfl
    rw [h1, run_cons_of_step (step_malloc_zero_at c) (List.replicate n (Op.malloc 0))]
    rw [ih ((c + 1) % W) (Nat.mod_lt _ (by decide))]
    rw [Nat.mod_add_mod, Nat.add_assoc, Nat.add_comm 1 n]

theorem freeUpdate_on_changed (b : Bump SIZE ALIGNMENT) :
    b.freeUpdate.on_changed = b.on_changed := by
  simp only [freeUpdate]
  split_ifs <;> rfl

theorem freeUpdate_heap (b : Bump SIZE ALIGNMENT) :
    b.freeUpdate.heap = b.heap := by
  simp only [freeUpdate]
  split_ifs <;> rfl

theorem freeUpdate_maximum_usage (b : Bump SIZE ALIGNMENT) :
    b.freeUpdate.maximum_usage = b.maximum_usage := by
  simp only [freeUpdate]
  split_ifs <;> rfl

end Bump

/-- C2 as stated is false on the code under the release-mode `usize`
semantics: the count increment in `malloc` wraps modulo `2^64`, so on
`Bump<8, 8>` the (astronomical but valid) trace of `2^64 - 1` calls to
`malloc(0)` followed by one `malloc(8)` reaches the machine state with
`count = 0` and `head = 8`, falsifying `outstanding == 0 → head == 0`
in a reachable state. -/
theorem claim_C2_counterexample :
    Bump.run (Bump.new 8 8)
      (List.replicate (2 ^ 64 - 1) (Op.malloc 0) ++ [Op.malloc 8]) =
      some (⟨0, 8, List.replicate 8 0, 8, false⟩ : Bump 8 8) ∧
    (⟨0, 8, List.replicate 8 0, 8, false⟩ : Bump 8 8).count = 0 ∧
    (⟨0, 8, List.replicate 8 0, 8, false⟩ : Bump 8 8).head ≠ 0 := by
  refine ⟨?_, rfl, by decide⟩
  have h1 : Bump.run (Bump.new 8 8) (List.replicate (2 ^ 64 - 1) (Op.malloc 0)) =
      some (⟨2 ^ 64 - 1, 0, List.replicate 8 0, 0, false⟩ : Bump 8 8) := by
    have h := Bump.run_replicate_malloc0 (2 ^ 64 - 1) 0 (by decide)
    have he : (0 + (2 ^ 64 - 1)) % W = 2 ^ 64 - 1 := by decide
    rw [he] at h
    exact h
  rw [Bump.run_append_of_some h1]
  decide

/-- C2 (amended): the invariant `outstanding == 0 → head == 0` holds at
construction, is preserved by every `free`, and is preserved by every
`malloc` that does not wrap the outstanding count (`count + 1 < 2^64`
— the counterexample shows the wrapping `malloc` breaks it); moreover
a `free` from `count = 1` resets `head` to 0 regardless of the sizes
previously allocated, and a `free` from any other count (`0`, or
`> 1`) leaves `head` unchanged. -/
theorem claim_C2_count_zero_head_zero_preserved :
    (∀ (S A : Nat), (Bump.new S A).count = 0 → (Bump.new S A).head = 0) ∧
    (∀ (S A : Nat) (b : Bump S A) (p : Nat),
      (b.count = 0 → b.head = 0) →
      ((b.free p).1.count = 0 → (b.free p).1.head = 0)) ∧
    (∀ (S A : Nat) (b b' : Bump S A) (size : Nat),
      b.count + 1 < W → b.step (Op.malloc size) = some b' →
      (b.count = 0 → b.head = 0) → (b'.count = 0 → b'.head = 0)) ∧
    (∀ (S A : Nat) (b : Bump S A) (p : Nat),
      b.count = 1 → (b.free p).1.head = 0) ∧
    (∀ (S A : Nat) (b : Bump S A) (p : Nat),
      b.count ≠ 1 → (b.free p).1.head = b.head) := by
  refine ⟨?_, ?_, ?_, ?_, ?_⟩
  · intro S A h
    rfl
  · intro S A b p hinv
    show b.freeUpdate.count = 0 → b.freeUpdate.head = 0
    simp only [Bump.freeUpdate]
    split_ifs with h1 h2
    · intro _; rfl
    · intro hc; exact absurd hc h2
    · exact hinv
  · intro S A b b' size hnw hstep hinv hc0
    simp only [Bump.step] at hstep
    cases hm : b.malloc size with
    | error e => rw [hm] at hstep; cases hstep
    | ok x =>
      obtain ⟨b'', r, evs⟩ := x
      rw [hm] at hstep
      simp only [Option.some.injEq] at hstep
      subst hstep
      rcases Bump.malloc_ok_elim hm with ⟨_, hb'', _, _⟩ | ⟨_, _, hb'', _, _⟩
      · subst hb''; exact hinv hc0
      · subst hb''
        exfalso
        have hc : (b.count + 1) % W = 0 := hc0
        rw [Nat.mod_eq_of_lt hnw] at hc
        exact Nat.succ_ne_zero _ hc
  · intro S A b p hc
    simp [Bump.free, Bump.freeUpdate, hc]
  · intro S A b p hc
    simp only [Bump.free, Bump.freeUpdate]
    split_ifs with h1 h2
    · exact absurd (by omega) hc
    · rfl
    · rfl

/-- Witness for C2 (amended): a `free` on `Bump<4, 2>` from `count = 1`
(head 3) resets the head to 0. -/
theorem claim_C2_count_zero_head_zero_preserved_witness :
    (⟨1, 3, List.replicate 4 0, 3, false⟩ : Bump 4 2).count = 1 ∧
    ((⟨1, 3, List.replicate 4 0, 3, false⟩ : Bump 4 2).free 5).1.head = 0 :=
  ⟨rfl,
   claim_C2_count_zero_head_zero_preserved.2.2.2.1 4 2
     (⟨1, 3, List.replicate 4 0, 3, false⟩ : Bump 4 2) 5 rfl⟩

/-- C6: in every state reachable from `Bump::new`, `0 ≤ head ≤ SIZE`
and `0 ≤ count` and `maximum_usage ≤ SIZE`; and over any operation
sequence from any state the high-water mark is non-decreasing. -/
theorem claim_C6_bounds_and_hwm_monotone :
    (∀ (S A : Nat) (ops : List Op) (b : Bump S A),
      Bump.run (Bump.new S A) ops = some b →
      b.head ≤ S ∧ 0 ≤ b.count ∧ b.maximum_usage ≤ S) ∧
    (∀ (S A : Nat) (b b' : Bump S A) (ops : List Op),
      Bump.run b ops = some b' → b.maximum_usage ≤ b'.maximum_usage) := by
  constructor
  · intro S A ops b h
    have hinv := Bump.inv_run (Bump.inv_new S A) h
    exact ⟨hinv.1, Nat.zero_le _, hinv.2⟩
  · intro S A b b' ops h
    exact Bump.run_maximum_usage_mono h

/-- Witness for C6 at a concrete trace: on `Bump<8, 4>`, a successful
`malloc(3)`, a failing `malloc(9)` and a `free` reach a state whose
head, count and high-water mark the theorem bounds. -/
theorem claim_C6_bounds_and_hwm_monotone_witness :
    (⟨0, 0, List.replicate 8 0, 4, false⟩ : Bump 8 4).head ≤ 8 ∧
    0 ≤ (⟨0, 0, List.replicate 8 0, 4, false⟩ : Bump 8 4).count ∧
    (⟨0, 0, List.replicate 8 0, 4, false⟩ : Bump 8 4).maximum_usage ≤ 8 :=
  claim_C6_bounds_and_hwm_monotone.1 8 4 [Op.malloc 3, Op.malloc 9, Op.free 0] _
    (by decide)

/-- C1 (amended): with a positive alignment, whenever `malloc` returns,
it returns null exactly when `head + rounded > capacity` (all in
machine `usize` arithmetic, as the code computes it); every request
with `head + rounded ≤ capacity` and `head < capacity` returns the
non-null address at offset `head`; but when `head + rounded ≤ capacity`
with `head = capacity` — rounded size 0 on a full arena — the call
panics on the slice index instead of returning an address, which is
what forces the amendment. -/
theorem claim_C1_null_iff_not_fit (S A : Nat) (b : Bump S A) (size : Nat)
    (hA : 0 < A) :
    (∀ (b' : Bump S A) (r : Option Nat) (evs : List Status),
      b.malloc size = .ok (b', r, evs) → (r = none ↔ S < b.nextHead size)) ∧
    (S < b.nextHead size → b.malloc size = .ok (b, none, b.changed .Error)) ∧
    (b.nextHead size ≤ S → b.head < S →
      b.malloc size =
        .ok (b.mallocUpdate size, some b.head,
          (b.mallocUpdate size).changed .Malloc)) ∧
    (b.nextHead size ≤ S → ¬ b.head < S →
      b.malloc size = .error .indexOutOfBounds) := by
  have hA' : A ≠ 0 := by omega
  refine ⟨?_, ?_, ?_, ?_⟩
  · intro b' r evs h
    rcases Bump.malloc_ok_elim h with ⟨hgt, _, hr, _⟩ | ⟨hfit, _, _, hr, _⟩
    · exact ⟨fun _ => hgt, fun _ => hr⟩
    · constructor
      · intro hnone
        rw [hnone] at hr
        exact Option.noConfusion hr
      · intro hgt'
        exact absurd hfit (Nat.not_le.mpr hgt')
  · intro h
    exact Bump.malloc_of_fail b size hA' h
  · intro h1 h2
    exact Bump.malloc_of_success b size hA' h1 h2
  · intro h1 h2
    exact Bump.malloc_of_panic b size hA' h1 h2

/-- Witness for C1 (amended): on a fresh `Bump<4, 2>`, `malloc(1)`
rounds to 2, fits, and returns the address at offset 0. -/
theorem claim_C1_null_iff_not_fit_witness :
    (0 : Nat) < 2 ∧
    (Bump.new 4 2).malloc 1 =
      .ok ((⟨1, 2, List.replicate 4 0, 2, false⟩ : Bump 4 2), some 0, []) :=
  ⟨by decide, by
    rw [(claim_C1_null_iff_not_fit 4 2 (Bump.new 4 2) 1 (by decide)).2.2.1
      (by decide) (by decide)]
    decide⟩

/-- C1 as stated is false on the code: on the zero-capacity arena
`Bump<0, 8>` fresh from `new`, the call `malloc(0)` has
`head + rounded = 0 ≤ capacity`, so the claim requires a non-null
address, but the code panics (index out of bounds on
`self.heap[self.head]`) instead of returning. -/
theorem claim_C1_counterexample :
    (Bump.new 0 8).head + Bump.roundedSize 8 0 ≤ 0 ∧
    (Bump.new 0 8).malloc 0 = .error .indexOutOfBounds := by
  constructor <;> decide

/-- C3: when the rounded request does not fit (`head + rounded >
capacity` in machine arithmetic), `malloc` returns null and leaves the
state — the same `Bump` record, hence head, count, high-water mark and
buffer — unchanged, and delivers exactly one `Error`-tagged event
(with the unchanged snapshot) when a change handler is installed. -/
theorem claim_C3_failed_malloc_state_unchanged (S A : Nat) (b : Bump S A)
    (size : Nat) (hA : 0 < A) (hfail : S < b.nextHead size) :
    b.malloc size = .ok (b, none, b.changed .Error) ∧
    (b.on_changed = true →
      b.changed .Error =
        [{ action := .Error, count := b.count, usage := b.head,
           maximum_usage := b.maximum_usage }]) := by
  refine ⟨Bump.malloc_of_fail b size (by omega) hfail, ?_⟩
  intro hon
  simp [Bump.changed, hon]

/-- Witness for C3: on `Bump<4, 2>` with a change handler installed,
`malloc(6)` rounds to 6, does not fit, returns null with the state
unchanged and one `Error` event. -/
theorem claim_C3_failed_malloc_state_unchanged_witness :
    (0 : Nat) < 2 ∧
    4 < (⟨0, 0, List.replicate 4 0, 0, true⟩ : Bump 4 2).nextHead 6 ∧
    (⟨0, 0, List.replicate 4 0, 0, true⟩ : Bump 4 2).malloc 6 =
      .ok ((⟨0, 0, List.replicate 4 0, 0, true⟩ : Bump 4 2), none,
        [{ action := .Error, count := 0, usage := 0, maximum_usage := 0 }]) :=
  ⟨by decide, by decide, by
    rw [(claim_C3_failed_malloc_state_unchanged 4 2
      (⟨0, 0, List.replicate 4 0, 0, true⟩ : Bump 4 2) 6
      (by decide) (by decide)).1]
    decide⟩

/-- C4 (amended): every successful `malloc(size)` returns the address
at offset equal to the pre-call head, sets `head` to `head + rounded`
(machine arithmetic), increments `count` modulo `2^64` (the source's
wrapping `usize` add — exactly `+1` whenever `count + 1 < 2^64`), sets
the high-water mark to `max` of its old value and the new head, leaves
the buffer untouched, and delivers exactly one `Malloc`-tagged event
carrying the post-operation snapshot when a change handler is
installed. -/
theorem claim_C4_successful_malloc_postcondition (S A : Nat)
    (b b' : Bump S A) (size r : Nat) (evs : List Status)
    (h : b.malloc size = .ok (b', some r, evs)) :
    r = b.head ∧
    b'.head = b.nextHead size ∧
    b'.count = (b.count + 1) % W ∧
    (b.count + 1 < W → b'.count = b.count + 1) ∧
    b'.maximum_usage = max b.maximum_usage (b.nextHead size) ∧
    b'.heap = b.heap ∧
    (b.on_changed = true →
      evs = [{ action := .Malloc, count := b'.count, usage := b'.head,
               maximum_usage := b'.maximum_usage }]) := by
  rcases Bump.malloc_ok_elim h with ⟨_, _, hr, _⟩ | ⟨hfit, hlt, hb', hr, hevs⟩
  · exact absurd hr (by simp)
  · injection hr with hr'
    subst hr'
    subst hb'
    refine ⟨rfl, rfl, rfl, ?_, ?_, rfl, ?_⟩
    · intro hnw
      show (b.count + 1) % W = b.count + 1
      exact Nat.mod_eq_of_lt hnw
    · show (if b.maximum_usage < b.nextHead size then b.nextHead size
        else b.maximum_usage) = max b.maximum_usage (b.nextHead size)
      rcases Nat.lt_or_ge b.maximum_usage (b.nextHead size) with hlt' | hge
      · rw [if_pos hlt']
        exact (max_eq_right (Nat.le_of_lt hlt')).symm
      · rw [if_neg (Nat.not_lt.mpr hge)]
        exact (max_eq_left hge).symm
    · intro hon
      rw [hevs]
      simp [Bump.changed, Bump.mallocUpdate, hon]

/-- Witness for C4 (amended): on `Bump<4, 2>` with a change handler
installed, `malloc(2)` succeeds from the fresh state; head goes 0 → 2,
the count 0 → 1 (no wrap), the high-water mark to 2, and one `Malloc`
event is delivered. -/
theorem claim_C4_successful_malloc_postcondition_witness :
    (0 : Nat) = (⟨0, 0, List.replicate 4 0, 0, true⟩ : Bump 4 2).head ∧
    (⟨1, 2, List.replicate 4 0, 2, true⟩ : Bump 4 2).head =
      (⟨0, 0, List.replicate 4 0, 0, true⟩ : Bump 4 2).nextHead 2 ∧
    (⟨1, 2, List.replicate 4 0, 2, true⟩ : Bump 4 2).count =
      ((⟨0, 0, List.replicate 4 0, 0, true⟩ : Bump 4 2).count + 1) % W ∧
    (⟨1, 2, List.replicate 4 0, 2, true⟩ : Bump 4 2).count =
      (⟨0, 0, List.replicate 4 0, 0, true⟩ : Bump 4 2).count + 1 ∧
    (⟨1, 2, List.replicate 4 0, 2, true⟩ : Bump 4 2).maximum_usage =
      max (⟨0, 0, List.replicate 4 0, 0, true⟩ : Bump 4 2).maximum_usage
        ((⟨0, 0, List.replicate 4 0, 0, true⟩ : Bump 4 2).nextHead 2) ∧
    (⟨1, 2, List.replicate 4 0, 2, true⟩ : Bump 4 2).heap =
      (⟨0, 0, List.replicate 4 0, 0, true⟩ : Bump 4 2).heap ∧
    ([{ action := .Malloc, count := 1, usage := 2, maximum_usage := 2 }] :
        List Status) =
      [{ action := .Malloc,
         count := (⟨1, 2, List.replicate 4 0, 2, true⟩ : Bump 4 2).count,
         usage := (⟨1, 2, List.replicate 4 0, 2, true⟩ : Bump 4 2).head,
         maximum_usage :=
           (⟨1, 2, List.replicate 4 0, 2, true⟩ : Bump 4 2).maximum_usage }] := by
  have h := claim_C4_successful_malloc_postcondition 4 2
    (⟨0, 0, List.replicate 4 0, 0, true⟩ : Bump 4 2)
    (⟨1, 2, List.replicate 4 0, 2, true⟩ : Bump 4 2) 2 0
    [{ action := .Malloc, count := 1, usage := 2, maximum_usage := 2 }]
    (by decide)
  exact ⟨h.1, h.2.1, h.2.2.1, h.2.2.2.1 (by decide), h.2.2.2.2.1,
    h.2.2.2.2.2.1, h.2.2.2.2.2.2 rfl⟩

/-- C4 as stated is false under the release-mode `usize` semantics the
code runs with: from `count = 2^64 - 1`, a successful `malloc(2)` on
`Bump<4, 2>` wraps the outstanding count to 0, which is not
`count + 1`. -/
theorem claim_C4_counterexample :
    (⟨2 ^ 64 - 1, 0, List.replicate 4 0, 0, false⟩ : Bump 4 2).malloc 2 =
      .ok ((⟨0, 2, List.replicate 4 0, 2, false⟩ : Bump 4 2), some 0, []) ∧
    (0 : Nat) ≠ (2 ^ 64 - 1) + 1 := by
  constructor <;> decide

/-- C5: `free` ignores its address argument and acts only on the
counter: from `count > 0` it decrements the count, resetting `head` to
0 exactly when the decrement reaches 0 and touching `head` otherwise
not at all; from `count = 0` it changes nothing; the buffer and
high-water mark are never touched; and in every case it delivers
exactly one `Free`-tagged event carrying the post-operation count,
head and high-water mark when a change handler is installed. -/
theorem claim_C5_free_counter_only (S A : Nat) (b : Bump S A) (p q : Nat) :
    b.free p = b.free q ∧
    (b.free p).1.heap = b.heap ∧
    (b.free p).1.maximum_usage = b.maximum_usage ∧
    (0 < b.count → (b.free p).1.count = b.count - 1) ∧
    (b.count = 1 → (b.free p).1.head = 0) ∧
    (b.count ≠ 1 → (b.free p).1.head = b.head) ∧
    (b.count = 0 → (b.free p).1 = b) ∧
    (b.on_changed = true →
      ∃ s : Status,
        (b.free p).2 = [s] ∧ s.action = .Free ∧
        s.count = (b.free p).1.count ∧ s.usage = (b.free p).1.head ∧
        s.maximum_usage = (b.free p).1.maximum_usage) := by
  refine ⟨rfl, Bump.freeUpdate_heap b, Bump.freeUpdate_maximum_usage b,
    ?_, ?_, ?_, ?_, ?_⟩
  · intro hc
    show b.freeUpdate.count = b.count - 1
    simp only [Bump.freeUpdate]
    rw [if_pos hc]
  · intro hc
    show b.freeUpdate.head = 0
    simp [Bump.freeUpdate, hc]
  · intro hc
    show b.freeUpdate.head = b.head
    simp only [Bump.freeUpdate]
    split_ifs with h1 h2
    · exact absurd (by omega) hc
    · rfl
    · rfl
  · intro hc
    show b.freeUpdate = b
    simp [Bump.freeUpdate, hc]
  · intro hon
    refine ⟨⟨.Free, b.freeUpdate.count, b.freeUpdate.head,
      b.freeUpdate.maximum_usage⟩, ?_, rfl, rfl, rfl, rfl⟩
    show b.freeUpdate.changed .Free = _
    simp [Bump.changed, Bump.freeUpdate_on_changed, hon]

/-- Witness for C5: on `Bump<4, 2>` with `count = 2`, `head = 3` and a
change handler installed, `free` with two different addresses acts the
same; it decrements the count to 1, keeps `head = 3`, and delivers one
`Free` event with the post-operation snapshot. -/
theorem claim_C5_free_counter_only_witness :
    (⟨2, 3, List.replicate 4 0, 3, true⟩ : Bump 4 2).free 9 =
      (⟨2, 3, List.replicate 4 0, 3, true⟩ : Bump 4 2).free 1 ∧
    ((⟨2, 3, List.replicate 4 0, 3, true⟩ : Bump 4 2).free 9).1.count =
      (⟨2, 3, List.replicate 4 0, 3, true⟩ : Bump 4 2).count - 1 ∧
    ((⟨2, 3, List.replicate 4 0, 3, true⟩ : Bump 4 2).free 9).1.head =
      (⟨2, 3, List.replicate 4 0, 3, true⟩ : Bump 4 2).head ∧
    ∃ s : Status,
      ((⟨2, 3, List.replicate 4 0, 3, true⟩ : Bump 4 2).free 9).2 = [s] ∧
      s.action = .Free ∧
      s.count = ((⟨2, 3, List.replicate 4 0, 3, true⟩ : Bump 4 2).free 9).1.count ∧
      s.usage = ((⟨2, 3, List.replicate 4 0, 3, true⟩ : Bump 4 2).free 9).1.head ∧
      s.maximum_usage =
        ((⟨2, 3, List.replicate 4 0, 3, true⟩ : Bump 4 2).free 9).1.maximum_usage := by
  have h := claim_C5_free_counter_only 4 2
    (⟨2, 3, List.replicate 4 0, 3, true⟩ : Bump 4 2) 9 1
  exact ⟨h.1, h.2.2.2.1 (by decide), h.2.2.2.2.2.1 (by decide),
    h.2.2.2.2.2.2.2 rfl⟩

/-- C7 as stated is false on the code: `malloc(0)` does not succeed in
every state.  Concretely, on `Bump<8, 8>` one `malloc(8)` fills the
arena to `head = 8 = capacity` (a reachable state), and the following
`malloc(0)` panics on `self.heap[self.head]` instead of returning the
current head address. -/
theorem claim_C7_counterexample :
    (Bump.new 8 8).malloc 8 =
      .ok ((⟨1, 8, List.replicate 8 0, 8, false⟩ : Bump 8 8), some 0, []) ∧
    (⟨1, 8, List.replicate 8 0, 8, false⟩ : Bump 8 8).malloc 0 =
      .error .indexOutOfBounds := by
  constructor <;> decide

/-- C7 (amended): in every state with `head < capacity`, `malloc(0)`
succeeds: it returns the current head offset, advances `head` by 0 and
increments `count` modulo `2^64` (exactly `+1` whenever
`count + 1 < 2^64`; the source's `usize` add wraps at
`count = 2^64 - 1`).  When `head = capacity` the call panics instead
(see the counterexample), which is what forces the amendment.
`A < 2 ^ 64` and `S < 2 ^ 64` hold for any `usize` parameters. -/
theorem claim_C7_malloc_zero_succeeds (S A : Nat) (b : Bump S A)
    (hA : 0 < A) (hAW : A < W) (hSW : S < W) (hlt : b.head < S) :
    b.malloc 0 =
      .ok (b.mallocUpdate 0, some b.head, (b.mallocUpdate 0).changed .Malloc) ∧
    (b.mallocUpdate 0).head = b.head ∧
    (b.mallocUpdate 0).count = (b.count + 1) % W ∧
    (b.count + 1 < W → (b.mallocUpdate 0).count = b.count + 1) := by
  have hr : Bump.roundedSize A 0 = 0 := by
    simp only [Bump.roundedSize]
    rw [Nat.mod_eq_of_lt (by omega : 0 + A - 1 < W),
      Nat.div_eq_of_lt (by omega : 0 + A - 1 < A), Nat.zero_mul]
  have hnh : b.nextHead 0 = b.head := by
    simp only [Bump.nextHead, hr, Nat.add_zero]
    exact Nat.mod_eq_of_lt (by omega)
  refine ⟨?_, ?_, rfl, ?_⟩
  · refine Bump.malloc_of_success b 0 (by omega) ?_ hlt
    rw [hnh]
    exact Nat.le_of_lt hlt
  · show b.nextHead 0 = b.head
    exact hnh
  · intro hnw
    show (b.count + 1) % W = b.count + 1
    exact Nat.mod_eq_of_lt hnw

/-- Witness for C7 (amended): on a fresh `Bump<4, 2>` (head 0 <
capacity 4), `malloc(0)` returns offset 0, leaves `head = 0` and sets
`count = 1`. -/
theorem claim_C7_malloc_zero_succeeds_witness :
    (0 : Nat) < 2 ∧ (Bump.new 4 2).head < 4 ∧
    (Bump.new 4 2).malloc 0 =
      .ok ((⟨1, 0, List.replicate 4 0, 0, false⟩ : Bump 4 2), some 0, []) :=
  ⟨by decide, by decide, by
    rw [(claim_C7_malloc_zero_succeeds 4 2 (Bump.new 4 2)
      (by decide) (by decide) (by decide) (by decide)).1]
    decide⟩

/-- C8: whenever the machine-rounded request is 0 and `head` equals the
capacity, the in-bounds check of `malloc` passes (`next_head ≤ SIZE`)
but `&mut self.heap[self.head]` indexes one past the end of the
buffer, so the call panics instead of returning an address or null. -/
theorem claim_C8_malloc_panics_when_full_and_rounded_zero (S A : Nat)
    (b : Bump S A) (size : Nat) (hA : 0 < A) (hSW : S < W)
    (hr : Bump.roundedSize A size = 0) (hhead : b.head = S) :
    b.nextHead size ≤ S ∧ b.malloc size = .error .indexOutOfBounds := by
  have hnh : b.nextHead size = S := by
    simp only [Bump.nextHead, hr, Nat.add_zero, hhead]
    exact Nat.mod_eq_of_lt hSW
  refine ⟨Nat.le_of_eq hnh, ?_⟩
  exact Bump.malloc_of_panic b size (by omega) (Nat.le_of_eq hnh) (by omega)

/-- Witness for C8: on `Bump<2, 2>` filled to `head = 2 = capacity`,
`malloc(0)` rounds to 0, passes the bounds check, and panics. -/
theorem claim_C8_malloc_panics_when_full_and_rounded_zero_witness :
    (0 : Nat) < 2 ∧ Bump.roundedSize 2 0 = 0 ∧
    (⟨1, 2, List.replicate 2 0, 2, false⟩ : Bump 2 2).malloc 0 =
      .error .indexOutOfBounds :=
  ⟨by decide, by decide,
    (claim_C8_malloc_panics_when_full_and_rounded_zero 2 2
      (⟨1, 2, List.replicate 2 0, 2, false⟩ : Bump 2 2) 0
      (by decide) (by decide) (by decide) rfl).2⟩

/-- C9: the rounding `((size + ALIGNMENT - 1) / ALIGNMENT) * ALIGNMENT`
is unguarded machine arithmetic: for `size = 2^64 - 7` with alignment
8 the sum `size + 8 - 1` reaches `2^64` and wraps to 0, the computed
rounded size (0) is smaller than the request, and `malloc` on a fresh
`Bump<1024, 8>` succeeds although the request far exceeds the
capacity. -/
theorem claim_C9_rounding_overflow :
    W ≤ (2 ^ 64 - 7) + 8 - 1 ∧
    Bump.roundedSize 8 (2 ^ 64 - 7) = 0 ∧
    Bump.roundedSize 8 (2 ^ 64 - 7) < 2 ^ 64 - 7 ∧
    1024 < 2 ^ 64 - 7 ∧
    (Bump.new 1024 8).malloc (2 ^ 64 - 7) =
      .ok ((⟨1, 0, List.replicate 1024 0, 0, false⟩ : Bump 1024 8),
        some 0, []) := by
  refine ⟨?_, ?_, ?_, ?_, ?_⟩ <;> decide

/-- C10: `Drop for Bump` invokes the leak handler exactly once iff the
outstanding count is positive (and never more than once); the default
handler `no_panic_on_drop_without_free` installed by `new` does
nothing, and the drop logic itself performs no panicking operation. -/
theorem claim_C10_drop_leak_handler (S A : Nat) (b : Bump S A) :
    (b.dropLeakInvocations = 1 ↔ 0 < b.count) ∧
    (b.dropLeakInvocations = 0 ↔ b.count = 0) ∧
    b.dropLeakInvocations ≤ 1 ∧
    no_panic_on_drop_without_free = () := by
  by_cases hc : 0 < b.count
  · have h1 : b.dropLeakInvocations = 1 := by
      simp [Bump.dropLeakInvocations, hc]
    rw [h1]
    exact ⟨⟨fun _ => hc, fun _ => rfl⟩,
      ⟨fun h => by omega, fun h => by omega⟩, by omega, rfl⟩
  · have h0 : b.count = 0 := by omega
    have h1 : b.dropLeakInvocations = 0 := by
      simp [Bump.dropLeakInvocations, hc]
    rw [h1]
    exact ⟨⟨fun h => by omega, fun h => by omega⟩,
      ⟨fun _ => h0, fun _ => rfl⟩, by omega, rfl⟩

end BumpMallocFree
